import Mathlib

/-!
# Hyprspace RPC control plane (`rpc/server.go`)

A shallow embedding of the three RPC handlers of the Hyprspace daemon
(`Status`, `Route`, `Peers`) together with theorems about them.

* Go's `error` results are `Except Error _`.
* The package-level reroute table of package `p2p` is threaded explicitly:
  every handler takes the table and returns the table it leaves behind.
* `*reply` is an in/out parameter: a handler takes the reply value the caller
  allocated and, when it returns `nil`, yields the value `*reply` then holds.
* Functions of third-party libraries (`net.ParseCIDR`, `peer.Decode`, the
  `String()` methods of libp2p values) are fields of `Lib`; the live libp2p
  host is the record `Host`.
-/

namespace Hyprspace

/-! ## Data model -/

/-- Go `error` value; `errors.New s` carries the message `s`. -/
structure Error where
  msg : String
deriving DecidableEq, Repr

/-- The Go call `errors.New(text)`. -/
def errors.New (text : String) : Error := ⟨text⟩

/-- The libp2p type `peer.ID` (`type ID string`). -/
abbrev PeerID := String

/-- The Go type `net.IPNet`: an address and a mask, both byte slices. -/
structure IPNet where
  IP : List Nat
  Mask : List Nat
deriving DecidableEq, Repr

/-- A `multiaddr.Multiaddr`, as its bytes. -/
structure Multiaddr where
  bytes : List Nat
deriving DecidableEq, Repr

/-- A `time.Duration` (nanoseconds). -/
abbrev Duration := Int

/-- The libp2p enumeration `network.Connectedness`. -/
inductive Connectedness where
  | NotConnected
  | Connected
  | CanConnect
  | CannotConnect
  | Limited
deriving DecidableEq, Repr

/-- A libp2p `network.Conn`, reduced to the two accessors the handlers call. -/
structure Conn where
  RemoteMultiaddr : Multiaddr
  RemotePeer : PeerID
deriving DecidableEq, Repr

/-- Modelled from the spec: `config.Peer` is declared outside `server.go`; a
configured peer identity. The handlers read `ID`. -/
structure config.Peer where
  ID : PeerID
deriving DecidableEq, Repr

/-- Modelled from the spec: `config.Route` is declared outside `server.go`; a
destination network and a target peer. The handlers read `Network` and
`Target.ID`. -/
structure config.Route where
  Network : IPNet
  Target : config.Peer
deriving DecidableEq, Repr

/-- Modelled from the spec: `config.Config` is declared outside `server.go`;
the ordered list of configured peers and the ordered list of configured
routes, the two fields the handlers read. -/
structure config.Config where
  Peers : List config.Peer
  Routes : List config.Route
deriving Repr

/-- The libp2p `host.Host` as the handlers observe it. -/
structure Host where
  ID : PeerID
  Addrs : List Multiaddr
  -- The value of `Network().Conns()`
  Conns : List Conn
  -- The value of `Network().Connectedness(p)`
  Connectedness : PeerID → Connectedness
  -- The value of `Network().ConnsToPeer(p)`
  ConnsToPeer : PeerID → List Conn
  -- The value of `Peerstore().LatencyEWMA(p)`
  LatencyEWMA : PeerID → Duration

/-- Third-party library functions used by the handlers. `ParseCIDR` keeps the
network result of `net.ParseCIDR` (the handlers discard the address result). -/
structure Lib where
  ParseCIDR : String → Except Error IPNet
  Decode : String → Except Error PeerID
  PeerIDString : PeerID → String
  MultiaddrString : Multiaddr → String
  DurationString : Duration → String

/-- The receiver `HyprspaceRPC`. -/
structure HyprspaceRPC where
  host : Host
  config : config.Config

/-- Modelled from the spec: the type `RouteAction` is declared outside
`server.go`; the spec gives it the three values Show, Relay and Reset, and
`Route` has a `default` branch for any other value of the underlying type,
which `Other` stands for. -/
inductive RouteAction where
  | Show
  | Relay
  | Reset
  | Other (v : Nat)
deriving DecidableEq, Repr

/-- Modelled from the spec: `RouteArgs` is declared outside `server.go`; the
request of `Route`, an action and a string argument list (`Action` and `Args`
in the handler). -/
structure RouteArgs where
  Action : RouteAction
  Args : List String
deriving Repr

/-- Modelled from the spec: `Args` is declared outside `server.go`; the request
of `Status` and `Peers`, of which no field is read. -/
structure Args where
deriving Repr

/-- Modelled from the spec: `RouteInfo` is declared outside `server.go`; one
entry of the reply of Show, with the five fields of the struct literal in
`Route`. -/
structure RouteInfo where
  Network : IPNet
  TargetAddr : PeerID
  RelayAddr : PeerID
  IsRelay : Bool
  IsConnected : Bool
deriving DecidableEq, Repr

/-- Modelled from the spec: `RouteReply` is declared outside `server.go`; the
reply of `Route`, whose field `Routes` the Show branch assigns. -/
structure RouteReply where
  Routes : List RouteInfo
deriving DecidableEq, Repr

/-- Modelled from the spec: `StatusReply` is declared outside `server.go`; own
id, total connections, connected-configured-peer count, formatted connection
strings, total configured-peer count and own addresses, in the order of the
positional struct literal in `Status`. -/
structure StatusReply where
  PeerID : String
  SwarmPeersCurrent : Nat
  NetPeersCurrent : Nat
  NetPeerAddrsCurrent : List String
  NetPeersMax : Nat
  ListenAddrs : List String
deriving DecidableEq, Repr

/-- Modelled from the spec: `PeersReply` is declared outside `server.go`; the
list of formatted strings that `Peers` returns. -/
structure PeersReply where
  PeerAddrs : List String
deriving DecidableEq, Repr

/-! ## Collaborators outside `server.go` -/

/-- Modelled from the spec: `p2p.Reroute` is declared outside `server.go`; an
entry of the reroute table, a network and the overriding relay peer that
`Route` reads as `To`. -/
structure Reroute where
  Network : IPNet
  To : PeerID
deriving DecidableEq, Repr

/-- Modelled from the spec: the reroute table of package `p2p` is "a keyed
store mapping a destination network to an overriding relay peer", with "at
most one active entry per network"; absence of an entry means no override. -/
abbrev RerouteTable := IPNet → Option PeerID

/-- Modelled from the spec: `p2p.FindReroute(network, reset)` is the table's
`lookup(network) -> optional(peer)` when the flag is false, and with the flag
set it is also `clear(network)`, where clearing an absent entry is a no-op.
Go's second result `found` is `isSome` of the first component. -/
def p2p.FindReroute (tbl : RerouteTable) (network : IPNet) (reset : Bool) :
    Option Reroute × RerouteTable :=
  match tbl network with
  | some peerID =>
    (some ⟨network, peerID⟩, if reset then fun n => if n = network then none else tbl n else tbl)
  | none => (none, tbl)

/-- Modelled from the spec: `p2p.AddReroute(network, peer)` is the table's
`set(network, peer)`: insert, or overwrite the entry of that network. -/
def p2p.AddReroute (tbl : RerouteTable) (network : IPNet) (peerID : PeerID) : RerouteTable :=
  fun n => if n = network then some peerID else tbl n

/-- Modelled from the spec: `config.FindRoute(routes, needle)` is the
configuration's lookup-by-network helper: the first configured route whose
network exactly matches `needle`. Go's `found` is `isSome`. -/
def config.FindRoute (routes : List config.Route) (needle : IPNet) :
    Option config.Route :=
  routes.find? (fun r => decide (r.Network = needle))

/-- Modelled from the spec: `config.FindPeer(peers, needle)` is the
configuration's lookup-by-id helper: the first configured peer whose identity
is `needle`. Go's `found` is `isSome`. -/
def config.FindPeer (peers : List config.Peer) (needle : PeerID) :
    Option config.Peer :=
  peers.find? (fun p => decide (p.ID = needle))

/-! ## The handlers of `server.go` -/

/-- The handler `HyprspaceRPC.Status`. -/
def HyprspaceRPC.Status (hsr : HyprspaceRPC) (lib : Lib) (_args : Args) (_reply : StatusReply)
    (tbl : RerouteTable) : Except Error StatusReply × RerouteTable :=
  let netPeersCurrent : Nat := 0
  let netPeerAddrsCurrent : List String := []
  let (netPeersCurrent, netPeerAddrsCurrent) :=
    hsr.config.Peers.foldl
      (fun (st : Nat × List String) p =>
        if hsr.host.Connectedness p.ID = Connectedness.Connected then
          let netPeersCurrent := st.1 + 1
          let netPeerAddrsCurrent :=
            (hsr.host.ConnsToPeer p.ID).foldl
              (fun acc c =>
                acc ++ [lib.MultiaddrString c.RemoteMultiaddr ++ "/p2p/" ++
                  lib.PeerIDString p.ID ++ " (" ++
                  lib.DurationString (hsr.host.LatencyEWMA p.ID) ++ ")"])
              st.2
          (netPeersCurrent, netPeerAddrsCurrent)
        else st)
      (netPeersCurrent, netPeerAddrsCurrent)
  let addrStrings : List String :=
    hsr.host.Addrs.foldl (fun acc ma => acc ++ [lib.MultiaddrString ma]) []
  (.ok {
      PeerID := lib.PeerIDString hsr.host.ID
      SwarmPeersCurrent := hsr.host.Conns.length
      NetPeersCurrent := netPeersCurrent
      NetPeerAddrsCurrent := netPeerAddrsCurrent
      NetPeersMax := hsr.config.Peers.length
      ListenAddrs := addrStrings },
   tbl)

/-- The handler `HyprspaceRPC.Route`. -/
def HyprspaceRPC.Route (hsr : HyprspaceRPC) (lib : Lib) (args : RouteArgs) (reply : RouteReply)
    (tbl : RerouteTable) : Except Error RouteReply × RerouteTable :=
  match args.Action with
  | .Show =>
    let (routes, tbl) :=
      hsr.config.Routes.foldl
        (fun (st : List RouteInfo × RerouteTable) r =>
          let connected :=
            decide (hsr.host.Connectedness r.Target.ID = Connectedness.Connected)
          let (reroute, tbl) := p2p.FindReroute st.2 r.Network false
          let relayAddr :=
            match reroute with
            | some reroute => reroute.To
            | none => r.Target.ID
          (st.1 ++ [{ Network := r.Network
                      TargetAddr := r.Target.ID
                      RelayAddr := relayAddr
                      IsRelay := reroute.isSome
                      IsConnected := connected }], tbl))
        ([], tbl)
    (.ok { Routes := routes }, tbl)
  | .Relay =>
    if h : args.Args.length ≠ 2 then
      (.error (errors.New "expected exactly 2 arguments"), tbl)
    else
      let resolved : Except Error (List IPNet) :=
        if args.Args[0] = "all" then
          .ok (hsr.config.Routes.foldl (fun networks r => networks ++ [r.Network]) [])
        else
          match lib.ParseCIDR args.Args[0] with
          | .error err => .error err
          | .ok network =>
            if (config.FindRoute hsr.config.Routes network).isSome = false then
              .error (errors.New "no such network")
            else .ok [network]
      match resolved with
      | .error err => (.error err, tbl)
      | .ok networks =>
        match lib.Decode args.Args[1] with
        | .error err => (.error err, tbl)
        | .ok p =>
          if (config.FindPeer hsr.config.Peers p).isSome = false then
            (.error (errors.New "no such peer"), tbl)
          else
            (.ok reply, networks.foldl (fun tbl n => p2p.AddReroute tbl n p) tbl)
  | .Reset =>
    if h : args.Args.length ≠ 1 then
      (.error (errors.New "expected exactly 1 argument"), tbl)
    else
      let resolved : Except Error (List IPNet) :=
        if args.Args[0] = "all" then
          .ok (hsr.config.Routes.foldl (fun networks r => networks ++ [r.Network]) [])
        else
          match lib.ParseCIDR args.Args[0] with
          | .error err => .error err
          | .ok network =>
            if (config.FindRoute hsr.config.Routes network).isSome = false then
              .error (errors.New "no such network")
            else .ok [network]
      match resolved with
      | .error err => (.error err, tbl)
      | .ok networks =>
        (.ok reply, networks.foldl (fun tbl n => (p2p.FindReroute tbl n true).2) tbl)
  | .Other _ => (.error (errors.New "no such action"), tbl)

/-- The handler `HyprspaceRPC.Peers`. -/
def HyprspaceRPC.Peers (hsr : HyprspaceRPC) (lib : Lib) (_args : Args) (_reply : PeersReply)
    (tbl : RerouteTable) : Except Error PeersReply × RerouteTable :=
  let peerAddrs : List String :=
    hsr.host.Conns.foldl
      (fun acc c =>
        acc ++ [lib.MultiaddrString c.RemoteMultiaddr ++ "/p2p/" ++
          lib.PeerIDString c.RemotePeer])
      []
  (.ok { PeerAddrs := peerAddrs }, tbl)

/-! ## A concrete daemon, used to instantiate the theorems -/

/-- The network `10.0.0.0/24`. -/
def exNet : IPNet := ⟨[10, 0, 0, 0], [255, 255, 255, 0]⟩

/-- The network `10.0.1.0/24`. -/
def exNetOther : IPNet := ⟨[10, 0, 1, 0], [255, 255, 255, 0]⟩

/-- Library functions that know two CIDR strings and three peer names. -/
def exLib : Lib where
  ParseCIDR := fun s =>
    if s = "10.0.0.0/24" then .ok exNet
    else if s = "10.0.1.0/24" then .ok exNetOther
    else .error (errors.New ("invalid CIDR address: " ++ s))
  Decode := fun s =>
    if s = "peerA" ∨ s = "peerB" ∨ s = "peerC" then .ok s
    else .error (errors.New "failed to parse peer ID")
  PeerIDString := fun p => p
  MultiaddrString := fun _ => "/ip4/192.0.2.1/tcp/8001"
  DurationString := fun _ => "12ms"

/-- A host connected to `peerA` over one connection, and to nothing else. -/
def exHost : Host where
  ID := "self"
  Addrs := [⟨[1]⟩]
  Conns := [⟨⟨[2]⟩, "peerA"⟩]
  Connectedness := fun p => if p = "peerA" then .Connected else .NotConnected
  ConnsToPeer := fun p => if p = "peerA" then [⟨⟨[2]⟩, "peerA"⟩] else []
  LatencyEWMA := fun _ => 12000000

/-- The configuration of the spec's examples: one route `10.0.0.0/24 → peerA`,
peers `peerA` and `peerB`. -/
def exRPC : HyprspaceRPC where
  host := exHost
  config := { Peers := [⟨"peerA"⟩, ⟨"peerB"⟩], Routes := [⟨exNet, ⟨"peerA"⟩⟩] }

/-- The empty reroute table. -/
def exEmpty : RerouteTable := fun _ => none

/-! ## Lemmas on the loops -/

theorem foldl_networks (routes : List config.Route) (acc : List IPNet) :
    routes.foldl (fun networks r => networks ++ [r.Network]) acc
      = acc ++ routes.map (fun r => r.Network) := by
  induction routes generalizing acc with
  | nil => simp
  | cons r rs ih => simp [ih]

theorem FindReroute_lookup (tbl : RerouteTable) (n : IPNet) :
    p2p.FindReroute tbl n false = ((tbl n).map (fun p => ⟨n, p⟩), tbl) := by
  unfold p2p.FindReroute
  cases tbl n <;> simp

theorem FindReroute_clear (tbl : RerouteTable) (n m : IPNet) :
    (p2p.FindReroute tbl n true).2 m = if m = n then none else tbl m := by
  unfold p2p.FindReroute
  cases h : tbl n with
  | none =>
    by_cases hm : m = n
    · simp [hm, h]
    · simp [hm]
  | some p => simp

theorem foldl_AddReroute (ns : List IPNet) (p : PeerID) (tbl : RerouteTable) (m : IPNet) :
    (ns.foldl (fun tbl n => p2p.AddReroute tbl n p) tbl) m
      = if m ∈ ns then some p else tbl m := by
  induction ns generalizing tbl with
  | nil => simp
  | cons n ns ih =>
    simp only [List.foldl_cons, ih, p2p.AddReroute, List.mem_cons]
    by_cases h1 : m ∈ ns
    · simp [h1]
    · by_cases h2 : m = n <;> simp [h1, h2]

theorem foldl_FindReroute_clear (ns : List IPNet) (tbl : RerouteTable) (m : IPNet) :
    (ns.foldl (fun tbl n => (p2p.FindReroute tbl n true).2) tbl) m
      = if m ∈ ns then none else tbl m := by
  induction ns generalizing tbl with
  | nil => simp
  | cons n ns ih =>
    simp only [List.foldl_cons, ih, FindReroute_clear, List.mem_cons]
    by_cases h1 : m ∈ ns
    · simp [h1]
    · by_cases h2 : m = n <;> simp [h1, h2]

theorem FindRoute_isSome (routes : List config.Route) (n : IPNet) :
    (config.FindRoute routes n).isSome = true ↔ ∃ r ∈ routes, r.Network = n := by
  simp [config.FindRoute, List.find?_isSome]

theorem FindPeer_isSome (peers : List config.Peer) (p : PeerID) :
    (config.FindPeer peers p).isSome = true ↔ ⟨p⟩ ∈ peers := by
  simp only [config.FindPeer, List.find?_isSome, decide_eq_true_eq]
  constructor
  · rintro ⟨⟨q⟩, hq, rfl⟩
    exact hq
  · intro h
    exact ⟨⟨p⟩, h, rfl⟩

/-- A loop that appends one element per iteration and hands the table on
unchanged is a `map`. -/
theorem foldl_append_keep {α β σ : Type} (f : List β × σ → α → List β × σ) (g : α → β)
    (t : σ) (hf : ∀ acc a, f (acc, t) a = (acc ++ [g a], t)) (l : List α) (acc : List β) :
    l.foldl f (acc, t) = (acc ++ l.map g, t) := by
  induction l generalizing acc with
  | nil => simp
  | cons a l ih => rw [List.foldl_cons, hf, ih]; simp

/-- Closed form of `Route` with action Show. -/
theorem Route_Show (hsr : HyprspaceRPC) (lib : Lib) (argl : List String)
    (reply : RouteReply) (tbl : RerouteTable) :
    hsr.Route lib ⟨.Show, argl⟩ reply tbl
      = (.ok ⟨hsr.config.Routes.map (fun r =>
            { Network := r.Network
              TargetAddr := r.Target.ID
              RelayAddr := (tbl r.Network).getD r.Target.ID
              IsRelay := (tbl r.Network).isSome
              IsConnected :=
                decide (hsr.host.Connectedness r.Target.ID = Connectedness.Connected) })⟩,
         tbl) := by
  unfold HyprspaceRPC.Route
  simp only
  rw [foldl_append_keep _ (fun r =>
            { Network := r.Network
              TargetAddr := r.Target.ID
              RelayAddr := (tbl r.Network).getD r.Target.ID
              IsRelay := (tbl r.Network).isSome
              IsConnected :=
                decide (hsr.host.Connectedness r.Target.ID = Connectedness.Connected) }) tbl]
  · simp
  · intro acc r
    simp only [FindReroute_lookup]
    cases tbl r.Network <;> simp

/-- `Route` with action Relay and selector "all", on a configured peer. -/
theorem Route_Relay_all (hsr : HyprspaceRPC) (lib : Lib) (sQ : String) (Q : PeerID)
    (reply : RouteReply) (tbl : RerouteTable)
    (hQ : lib.Decode sQ = .ok Q) (hpeer : ⟨Q⟩ ∈ hsr.config.Peers) :
    hsr.Route lib ⟨.Relay, ["all", sQ]⟩ reply tbl
      = (.ok reply,
          (hsr.config.Routes.map (fun r => r.Network)).foldl
            (fun tbl n => p2p.AddReroute tbl n Q) tbl) := by
  have h := (FindPeer_isSome hsr.config.Peers Q).2 hpeer
  simp [HyprspaceRPC.Route, hQ, h, foldl_networks]

/-- `Route` with action Relay and a CIDR selector of a configured route, on a
configured peer. -/
theorem Route_Relay_cidr (hsr : HyprspaceRPC) (lib : Lib) (sN sQ : String) (N : IPNet)
    (Q : PeerID) (reply : RouteReply) (tbl : RerouteTable)
    (hall : sN ≠ "all") (hN : lib.ParseCIDR sN = .ok N)
    (hroute : ∃ r ∈ hsr.config.Routes, r.Network = N)
    (hQ : lib.Decode sQ = .ok Q) (hpeer : ⟨Q⟩ ∈ hsr.config.Peers) :
    hsr.Route lib ⟨.Relay, [sN, sQ]⟩ reply tbl = (.ok reply, p2p.AddReroute tbl N Q) := by
  have h := (FindPeer_isSome hsr.config.Peers Q).2 hpeer
  have h2 := (FindRoute_isSome hsr.config.Routes N).2 hroute
  simp [HyprspaceRPC.Route, hQ, h, hall, hN, h2]

/-- `Route` with action Reset and selector "all". -/
theorem Route_Reset_all (hsr : HyprspaceRPC) (lib : Lib)
    (reply : RouteReply) (tbl : RerouteTable) :
    hsr.Route lib ⟨.Reset, ["all"]⟩ reply tbl
      = (.ok reply,
          (hsr.config.Routes.map (fun r => r.Network)).foldl
            (fun tbl n => (p2p.FindReroute tbl n true).2) tbl) := by
  simp [HyprspaceRPC.Route, foldl_networks]

/-- `Route` with action Reset and a CIDR selector of a configured route. -/
theorem Route_Reset_cidr (hsr : HyprspaceRPC) (lib : Lib) (sN : String) (N : IPNet)
    (reply : RouteReply) (tbl : RerouteTable)
    (hall : sN ≠ "all") (hN : lib.ParseCIDR sN = .ok N)
    (hroute : ∃ r ∈ hsr.config.Routes, r.Network = N) :
    hsr.Route lib ⟨.Reset, [sN]⟩ reply tbl = (.ok reply, (p2p.FindReroute tbl N true).2) := by
  have h2 := (FindRoute_isSome hsr.config.Routes N).2 hroute
  simp [HyprspaceRPC.Route, hall, hN, h2]

/-- A loop that appends one element per iteration is a `map`. -/
theorem foldl_append_map {α β : Type} (g : α → β) (l : List α) (acc : List β) :
    l.foldl (fun acc a => acc ++ [g a]) acc = acc ++ l.map g := by
  induction l generalizing acc with
  | nil => simp
  | cons a l ih => simp [ih]

/-- A loop that, for the elements passing a test, bumps a counter and appends
a batch of elements, counts and collects the elements that pass. -/
theorem foldl_count_collect {α β : Type} (f : Nat × List β → α → Nat × List β)
    (c : α → Bool) (g : α → List β)
    (hf : ∀ n acc a, f (n, acc) a = if c a = true then (n + 1, acc ++ g a) else (n, acc))
    (l : List α) (n : Nat) (acc : List β) :
    l.foldl f (n, acc) = (n + (l.filter c).length, acc ++ (l.filter c).flatMap g) := by
  induction l generalizing n acc with
  | nil => simp
  | cons a l ih =>
    rw [List.foldl_cons, hf]
    by_cases hc : c a = true
    · rw [if_pos hc, ih]
      simp [hc, List.filter_cons, Nat.add_comm, Nat.add_left_comm]
    · rw [if_neg hc, ih]
      simp [hc, List.filter_cons]

/-- Closed form of `Status`. -/
theorem Status_eq (hsr : HyprspaceRPC) (lib : Lib) (args : Args) (reply : StatusReply)
    (tbl : RerouteTable) :
    hsr.Status lib args reply tbl
      = (.ok {
          PeerID := lib.PeerIDString hsr.host.ID
          SwarmPeersCurrent := hsr.host.Conns.length
          NetPeersCurrent := (hsr.config.Peers.filter (fun p =>
              decide (hsr.host.Connectedness p.ID = Connectedness.Connected))).length
          NetPeerAddrsCurrent := (hsr.config.Peers.filter (fun p =>
              decide (hsr.host.Connectedness p.ID = Connectedness.Connected))).flatMap
            (fun p => (hsr.host.ConnsToPeer p.ID).map (fun c =>
              lib.MultiaddrString c.RemoteMultiaddr ++ "/p2p/" ++
                lib.PeerIDString p.ID ++ " (" ++
                lib.DurationString (hsr.host.LatencyEWMA p.ID) ++ ")"))
          NetPeersMax := hsr.config.Peers.length
          ListenAddrs := hsr.host.Addrs.map lib.MultiaddrString }, tbl) := by
  unfold HyprspaceRPC.Status
  simp only
  rw [foldl_count_collect _
        (fun p => decide (hsr.host.Connectedness p.ID = Connectedness.Connected))
        (fun p => (hsr.host.ConnsToPeer p.ID).map (fun c =>
              lib.MultiaddrString c.RemoteMultiaddr ++ "/p2p/" ++
                lib.PeerIDString p.ID ++ " (" ++
                lib.DurationString (hsr.host.LatencyEWMA p.ID) ++ ")")),
      foldl_append_map]
  · simp
  · intro n acc p
    by_cases hc : hsr.host.Connectedness p.ID = Connectedness.Connected
    · simp [hc, foldl_append_map]
    · simp [hc]

/-- C1: whenever `Route` returns an error, the reroute table it leaves behind
is the table it was called with, for every configuration, table, action and
argument list. -/
theorem Route_error_keeps_table (hsr : HyprspaceRPC) (lib : Lib) (args : RouteArgs)
    (reply : RouteReply) (tbl : RerouteTable) (err : Error)
    (h : (hsr.Route lib args reply tbl).1 = .error err) :
    (hsr.Route lib args reply tbl).2 = tbl := by
  obtain ⟨action, argl⟩ := args
  cases action with
  | Show =>
    simp only [HyprspaceRPC.Route] at h
    cases h
  | Relay =>
    simp only [HyprspaceRPC.Route] at h ⊢
    repeat' split
    all_goals first | rfl | simp_all
  | Reset =>
    simp only [HyprspaceRPC.Route] at h ⊢
    repeat' split
    all_goals first | rfl | simp_all
  | Other v => rfl

theorem Route_error_keeps_table_witness :
    (exRPC.Route exLib ⟨.Relay, ["x"]⟩ ⟨[]⟩ exEmpty).1
        = .error (errors.New "expected exactly 2 arguments")
      ∧ (exRPC.Route exLib ⟨.Relay, ["x"]⟩ ⟨[]⟩ exEmpty).2 = exEmpty :=
  ⟨by rfl, Route_error_keeps_table exRPC exLib ⟨.Relay, ["x"]⟩ ⟨[]⟩ exEmpty _ (by rfl)⟩

/-- C2: round trip. In a configuration whose route networks are unique, let
`N → T` be a configured route, `Q` a configured peer, `sN` a string that
parses to `N` and `sQ` a string that decodes to `Q`. Then Relay `[sN, sQ]`
succeeds, the following Show succeeds and has a RouteInfo for `N`, and every
RouteInfo for `N` has target `T`, relay address `Q` and the relay flag set;
the following Reset `[sN]` succeeds, the Show after it has a RouteInfo for `N`
and every RouteInfo for `N` has relay address `T` and the relay flag clear. -/
theorem Route_Relay_Show_Reset_Show (hsr : HyprspaceRPC) (lib : Lib)
    (N : IPNet) (T Q : PeerID) (sN sQ : String) (showArgs : List String)
    (reply : RouteReply) (tbl : RerouteTable)
    (huniq : (hsr.config.Routes.map (fun r => r.Network)).Nodup)
    (hroute : ⟨N, ⟨T⟩⟩ ∈ hsr.config.Routes)
    (hpeer : ⟨Q⟩ ∈ hsr.config.Peers)
    (hsN : lib.ParseCIDR sN = .ok N) (hsQ : lib.Decode sQ = .ok Q) :
    ∃ (t1 t2 : RerouteTable) (shown1 shown2 : RouteReply),
      hsr.Route lib ⟨.Relay, [sN, sQ]⟩ reply tbl = (.ok reply, t1) ∧
      hsr.Route lib ⟨.Show, showArgs⟩ reply t1 = (.ok shown1, t1) ∧
      (∃ info ∈ shown1.Routes, info.Network = N) ∧
      (∀ info ∈ shown1.Routes, info.Network = N →
        info.TargetAddr = T ∧ info.RelayAddr = Q ∧ info.IsRelay = true) ∧
      hsr.Route lib ⟨.Reset, [sN]⟩ reply t1 = (.ok reply, t2) ∧
      hsr.Route lib ⟨.Show, showArgs⟩ reply t2 = (.ok shown2, t2) ∧
      (∃ info ∈ shown2.Routes, info.Network = N) ∧
      (∀ info ∈ shown2.Routes, info.Network = N →
        info.TargetAddr = T ∧ info.RelayAddr = T ∧ info.IsRelay = false) := by
  have hex : ∃ r ∈ hsr.config.Routes, r.Network = N := ⟨_, hroute, rfl⟩
  have hmem : N ∈ hsr.config.Routes.map (fun r => r.Network) :=
    List.mem_map.2 hex
  have htarget : ∀ r ∈ hsr.config.Routes, r.Network = N → r.Target.ID = T := by
    intro r hr hrn
    have := List.inj_on_of_nodup_map huniq hr hroute hrn
    rw [this]
  -- the two mutations, whichever way the selector resolves
  have hmut : ∃ t1 t2 : RerouteTable,
      hsr.Route lib ⟨.Relay, [sN, sQ]⟩ reply tbl = (.ok reply, t1) ∧ t1 N = some Q ∧
      hsr.Route lib ⟨.Reset, [sN]⟩ reply t1 = (.ok reply, t2) ∧ t2 N = none := by
    by_cases hall : sN = "all"
    · subst hall
      refine ⟨_, _, Route_Relay_all hsr lib sQ Q reply tbl hsQ hpeer, ?_,
        Route_Reset_all hsr lib reply _, ?_⟩
      · rw [foldl_AddReroute, if_pos hmem]
      · rw [foldl_FindReroute_clear, if_pos hmem]
    · refine ⟨_, _, Route_Relay_cidr hsr lib sN sQ N Q reply tbl hall hsN hex hsQ hpeer, ?_,
        Route_Reset_cidr hsr lib sN N reply _ hall hsN hex, ?_⟩
      · simp [p2p.AddReroute]
      · rw [FindReroute_clear, if_pos rfl]
  obtain ⟨t1, t2, h1, ht1, h2, ht2⟩ := hmut
  refine ⟨t1, t2, _, _, h1, Route_Show hsr lib showArgs reply t1, ?_, ?_, h2,
    Route_Show hsr lib showArgs reply t2, ?_, ?_⟩
  · exact ⟨_, List.mem_map.2 ⟨_, hroute, rfl⟩, rfl⟩
  · intro info hinfo hn
    obtain ⟨r, hr, rfl⟩ := List.mem_map.1 hinfo
    have hrn : r.Network = N := hn
    simp [hrn, ht1, htarget r hr hrn]
  · exact ⟨_, List.mem_map.2 ⟨_, hroute, rfl⟩, rfl⟩
  · intro info hinfo hn
    obtain ⟨r, hr, rfl⟩ := List.mem_map.1 hinfo
    have hrn : r.Network = N := hn
    simp [hrn, ht2, htarget r hr hrn]

theorem Route_Relay_Show_Reset_Show_witness :
    ∃ (t1 t2 : RerouteTable) (shown1 shown2 : RouteReply),
      exRPC.Route exLib ⟨.Relay, ["10.0.0.0/24", "peerB"]⟩ ⟨[]⟩ exEmpty = (.ok ⟨[]⟩, t1) ∧
      exRPC.Route exLib ⟨.Show, []⟩ ⟨[]⟩ t1 = (.ok shown1, t1) ∧
      (∃ info ∈ shown1.Routes, info.Network = exNet) ∧
      (∀ info ∈ shown1.Routes, info.Network = exNet →
        info.TargetAddr = "peerA" ∧ info.RelayAddr = "peerB" ∧ info.IsRelay = true) ∧
      exRPC.Route exLib ⟨.Reset, ["10.0.0.0/24"]⟩ ⟨[]⟩ t1 = (.ok ⟨[]⟩, t2) ∧
      exRPC.Route exLib ⟨.Show, []⟩ ⟨[]⟩ t2 = (.ok shown2, t2) ∧
      (∃ info ∈ shown2.Routes, info.Network = exNet) ∧
      (∀ info ∈ shown2.Routes, info.Network = exNet →
        info.TargetAddr = "peerA" ∧ info.RelayAddr = "peerA" ∧ info.IsRelay = false) :=
  Route_Relay_Show_Reset_Show exRPC exLib exNet "peerA" "peerB" "10.0.0.0/24" "peerB" []
    ⟨[]⟩ exEmpty (by simp [exRPC]) (by simp [exRPC]) (by simp [exRPC]) (by rfl) (by rfl)

/-- C3: for a peer string `sQ` that decodes to a configured peer `Q`, Relay
`["all", sQ]` succeeds and afterwards the lookup of every configured route's
network in the reroute table finds an override pointing at `Q`, whatever the
table held before. -/
theorem Route_Relay_all_overrides_every_route (hsr : HyprspaceRPC) (lib : Lib)
    (sQ : String) (Q : PeerID) (reply : RouteReply) (tbl : RerouteTable)
    (hsQ : lib.Decode sQ = .ok Q) (hpeer : ⟨Q⟩ ∈ hsr.config.Peers) :
    (hsr.Route lib ⟨.Relay, ["all", sQ]⟩ reply tbl).1 = .ok reply ∧
    ∀ r ∈ hsr.config.Routes,
      (p2p.FindReroute (hsr.Route lib ⟨.Relay, ["all", sQ]⟩ reply tbl).2 r.Network false).1
        = some ⟨r.Network, Q⟩ := by
  rw [Route_Relay_all hsr lib sQ Q reply tbl hsQ hpeer]
  refine ⟨rfl, ?_⟩
  intro r hr
  have hmem : r.Network ∈ hsr.config.Routes.map (fun r => r.Network) :=
    List.mem_map.2 ⟨r, hr, rfl⟩
  rw [FindReroute_lookup]
  simp only
  rw [foldl_AddReroute, if_pos hmem]
  rfl

theorem Route_Relay_all_overrides_every_route_witness :
    (exRPC.Route exLib ⟨.Relay, ["all", "peerB"]⟩ ⟨[]⟩ exEmpty).1 = .ok ⟨[]⟩ ∧
    ∀ r ∈ exRPC.config.Routes,
      (p2p.FindReroute (exRPC.Route exLib ⟨.Relay, ["all", "peerB"]⟩ ⟨[]⟩ exEmpty).2
          r.Network false).1
        = some ⟨r.Network, "peerB"⟩ :=
  Route_Relay_all_overrides_every_route exRPC exLib "peerB" "peerB" ⟨[]⟩ exEmpty (by rfl)
    (by simp [exRPC])

/-- C4: a two-argument Relay whose first argument is not "all" and parses to
a network that no configured route has fails with "no such network" and
leaves the reroute table as it was, whatever the second argument. -/
theorem Route_Relay_unknown_network (hsr : HyprspaceRPC) (lib : Lib)
    (s a1 : String) (n : IPNet) (reply : RouteReply) (tbl : RerouteTable)
    (hall : s ≠ "all") (hparse : lib.ParseCIDR s = .ok n)
    (hno : ∀ r ∈ hsr.config.Routes, r.Network ≠ n) :
    hsr.Route lib ⟨.Relay, [s, a1]⟩ reply tbl
      = (.error (errors.New "no such network"), tbl) := by
  have h : config.FindRoute hsr.config.Routes n = none := by
    cases hf : config.FindRoute hsr.config.Routes n with
    | none => rfl
    | some r =>
      have := (FindRoute_isSome hsr.config.Routes n).1 (by simp [hf])
      obtain ⟨r', hr', hn⟩ := this
      exact absurd hn (hno r' hr')
  simp [HyprspaceRPC.Route, hall, hparse, h]

theorem Route_Relay_unknown_network_witness :
    exRPC.Route exLib ⟨.Relay, ["10.0.1.0/24", "not a peer"]⟩ ⟨[]⟩ exEmpty
      = (.error (errors.New "no such network"), exEmpty) :=
  Route_Relay_unknown_network exRPC exLib "10.0.1.0/24" "not a peer" exNetOther ⟨[]⟩ exEmpty
    (by decide) (by rfl) (by simp [exRPC, exNet, exNetOther])

/-- C5: with an argument list whose length is not 2, Relay returns the
argument-count error "expected exactly 2 arguments", and with one whose length
is not 1, Reset returns "expected exactly 1 argument"; the result is this
constant for every configuration, library behaviour and argument content, and
the reroute table is returned as it was. -/
theorem Route_argument_count (hsr : HyprspaceRPC) (lib : Lib) (argl : List String)
    (reply : RouteReply) (tbl : RerouteTable) :
    (argl.length ≠ 2 →
      hsr.Route lib ⟨.Relay, argl⟩ reply tbl
        = (.error (errors.New "expected exactly 2 arguments"), tbl)) ∧
    (argl.length ≠ 1 →
      hsr.Route lib ⟨.Reset, argl⟩ reply tbl
        = (.error (errors.New "expected exactly 1 argument"), tbl)) := by
  constructor
  · intro h
    simp [HyprspaceRPC.Route, h]
  · intro h
    simp [HyprspaceRPC.Route, h]

theorem Route_argument_count_witness :
    exRPC.Route exLib ⟨.Relay, ["x"]⟩ ⟨[]⟩ exEmpty
        = (.error (errors.New "expected exactly 2 arguments"), exEmpty) ∧
    exRPC.Route exLib ⟨.Reset, ["10.0.0.0/24", "peerB"]⟩ ⟨[]⟩ exEmpty
        = (.error (errors.New "expected exactly 1 argument"), exEmpty) :=
  ⟨(Route_argument_count exRPC exLib ["x"] ⟨[]⟩ exEmpty).1 (by decide),
   (Route_argument_count exRPC exLib ["10.0.0.0/24", "peerB"] ⟨[]⟩ exEmpty).2 (by decide)⟩

/-- C6: Reset is idempotent. For a string `sN` that parses to the network `N`
of a configured route, Reset `[sN]` succeeds and leaves a table `t1` in which
`N` has no override; a second Reset `[sN]` on `t1` also succeeds and leaves
exactly `t1` again. -/
theorem Route_Reset_idempotent (hsr : HyprspaceRPC) (lib : Lib) (N : IPNet) (sN : String)
    (reply : RouteReply) (tbl : RerouteTable)
    (hroute : ∃ r ∈ hsr.config.Routes, r.Network = N)
    (hsN : lib.ParseCIDR sN = .ok N) :
    ∃ t1 : RerouteTable,
      hsr.Route lib ⟨.Reset, [sN]⟩ reply tbl = (.ok reply, t1) ∧
      (p2p.FindReroute t1 N false).1 = none ∧
      hsr.Route lib ⟨.Reset, [sN]⟩ reply t1 = (.ok reply, t1) := by
  have hmem : N ∈ hsr.config.Routes.map (fun r => r.Network) :=
    List.mem_map.2 hroute
  by_cases hall : sN = "all"
  · subst hall
    refine ⟨_, Route_Reset_all hsr lib reply tbl, ?_, ?_⟩
    · rw [FindReroute_lookup]
      simp only
      rw [foldl_FindReroute_clear, if_pos hmem]
      rfl
    · rw [Route_Reset_all]
      congr 1
      funext m
      simp only [foldl_FindReroute_clear]
      split <;> rfl
  · refine ⟨_, Route_Reset_cidr hsr lib sN N reply tbl hall hsN hroute, ?_, ?_⟩
    · rw [FindReroute_lookup]
      simp only
      rw [FindReroute_clear, if_pos rfl]
      rfl
    · rw [Route_Reset_cidr hsr lib sN N reply _ hall hsN hroute]
      congr 1
      funext m
      simp only [FindReroute_clear]
      split <;> rfl

theorem Route_Reset_idempotent_witness :
    ∃ t1 : RerouteTable,
      exRPC.Route exLib ⟨.Reset, ["10.0.0.0/24"]⟩ ⟨[]⟩ (p2p.AddReroute exEmpty exNet "peerB")
        = (.ok ⟨[]⟩, t1) ∧
      (p2p.FindReroute t1 exNet false).1 = none ∧
      exRPC.Route exLib ⟨.Reset, ["10.0.0.0/24"]⟩ ⟨[]⟩ t1 = (.ok ⟨[]⟩, t1) :=
  Route_Reset_idempotent exRPC exLib exNet "10.0.0.0/24" ⟨[]⟩
    (p2p.AddReroute exEmpty exNet "peerB") (by simp [exRPC]) (by rfl)

/-- C7: Show never returns an error, whatever the arguments and the table. Its
reply has one RouteInfo per configured route, in configuration order: the
entry at index `i` has the network and target of the `i`-th route, its relay
flag is set exactly when the table holds an override for that network, its
relay address is the override's peer when there is one and the route's own
target otherwise, and its connected flag is set exactly when the target's
connectedness is Connected. -/
theorem Route_Show_reply (hsr : HyprspaceRPC) (lib : Lib) (argl : List String)
    (reply : RouteReply) (tbl : RerouteTable) :
    ∃ shown : RouteReply,
      (hsr.Route lib ⟨.Show, argl⟩ reply tbl).1 = .ok shown ∧
      shown.Routes.length = hsr.config.Routes.length ∧
      ∀ (i : Nat) (r : config.Route), hsr.config.Routes[i]? = some r →
        ∃ info : RouteInfo, shown.Routes[i]? = some info ∧
          info.Network = r.Network ∧
          info.TargetAddr = r.Target.ID ∧
          (info.IsRelay = true ↔ ∃ q, tbl r.Network = some q) ∧
          (∀ q, tbl r.Network = some q → info.RelayAddr = q) ∧
          (tbl r.Network = none → info.RelayAddr = r.Target.ID) ∧
          (info.IsConnected = true ↔
            hsr.host.Connectedness r.Target.ID = Connectedness.Connected) := by
  rw [Route_Show]
  refine ⟨_, rfl, by simp, ?_⟩
  intro i r hi
  refine ⟨{ Network := r.Network
            TargetAddr := r.Target.ID
            RelayAddr := (tbl r.Network).getD r.Target.ID
            IsRelay := (tbl r.Network).isSome
            IsConnected :=
              decide (hsr.host.Connectedness r.Target.ID = Connectedness.Connected) },
    by simp only [List.getElem?_map, hi, Option.map_some'], rfl, rfl, ?_, ?_, ?_, ?_⟩
  · simp [Option.isSome_iff_exists]
  · intro q hq
    simp [hq]
  · intro hq
    simp [hq]
  · simp

/-- C8: Relay succeeds exactly when the argument list has two elements, the
first is "all" or parses to the network of some configured route, and the
second decodes to an identity that is among the configured peers; in every
other case Relay returns an error. -/
theorem Route_Relay_succeeds_iff (hsr : HyprspaceRPC) (lib : Lib) (argl : List String)
    (reply : RouteReply) (tbl : RerouteTable) :
    ((∃ out, (hsr.Route lib ⟨.Relay, argl⟩ reply tbl).1 = .ok out) ↔
      ∃ a0 a1, argl = [a0, a1] ∧
        (a0 = "all" ∨
          ∃ n, lib.ParseCIDR a0 = .ok n ∧ ∃ r ∈ hsr.config.Routes, r.Network = n) ∧
        ∃ p, lib.Decode a1 = .ok p ∧ ⟨p⟩ ∈ hsr.config.Peers) ∧
    ((¬ ∃ a0 a1, argl = [a0, a1] ∧
        (a0 = "all" ∨
          ∃ n, lib.ParseCIDR a0 = .ok n ∧ ∃ r ∈ hsr.config.Routes, r.Network = n) ∧
        ∃ p, lib.Decode a1 = .ok p ∧ ⟨p⟩ ∈ hsr.config.Peers) →
      ∃ err, (hsr.Route lib ⟨.Relay, argl⟩ reply tbl).1 = .error err) := by
  have key : (∃ out, (hsr.Route lib ⟨.Relay, argl⟩ reply tbl).1 = .ok out) ↔
      ∃ a0 a1, argl = [a0, a1] ∧
        (a0 = "all" ∨
          ∃ n, lib.ParseCIDR a0 = .ok n ∧ ∃ r ∈ hsr.config.Routes, r.Network = n) ∧
        ∃ p, lib.Decode a1 = .ok p ∧ ⟨p⟩ ∈ hsr.config.Peers := by
    constructor
    · rintro ⟨out, hout⟩
      match argl, hout with
      | [], hout => simp [HyprspaceRPC.Route] at hout
      | [_], hout => simp [HyprspaceRPC.Route] at hout
      | _ :: _ :: _ :: _, hout => simp [HyprspaceRPC.Route] at hout
      | [a0, a1], hout =>
        refine ⟨a0, a1, rfl, ?_⟩
        simp only [HyprspaceRPC.Route] at hout
        by_cases hall : a0 = "all"
        · cases hd : lib.Decode a1 with
          | error e => simp [hall, hd] at hout
          | ok p =>
            cases hp : config.FindPeer hsr.config.Peers p with
            | none => simp [hall, hd, hp] at hout
            | some q =>
              exact ⟨Or.inl hall, p, rfl,
                (FindPeer_isSome hsr.config.Peers p).1 (by simp [hp])⟩
        · cases hn : lib.ParseCIDR a0 with
          | error e => simp [hall, hn] at hout
          | ok n =>
            cases hr : config.FindRoute hsr.config.Routes n with
            | none => simp [hall, hn, hr] at hout
            | some r0 =>
              cases hd : lib.Decode a1 with
              | error e => simp [hall, hn, hr, hd] at hout
              | ok p =>
                cases hp : config.FindPeer hsr.config.Peers p with
                | none => simp [hall, hn, hr, hd, hp] at hout
                | some q =>
                  exact ⟨Or.inr ⟨n, rfl,
                      (FindRoute_isSome hsr.config.Routes n).1 (by simp [hr])⟩,
                    p, rfl, (FindPeer_isSome hsr.config.Peers p).1 (by simp [hp])⟩
    · rintro ⟨a0, a1, rfl, hnet, p, hp, hpeer⟩
      by_cases hall : a0 = "all"
      · subst hall
        exact ⟨reply, by rw [Route_Relay_all hsr lib a1 p reply tbl hp hpeer]⟩
      · rcases hnet with hnet | ⟨n, hn, hroute⟩
        · exact absurd hnet hall
        · exact ⟨reply, by
            rw [Route_Relay_cidr hsr lib a0 a1 n p reply tbl hall hn hroute hp hpeer]⟩
  refine ⟨key, ?_⟩
  intro hnot
  cases hres : (hsr.Route lib ⟨.Relay, argl⟩ reply tbl).1 with
  | error err => exact ⟨err, rfl⟩
  | ok out => exact absurd (key.1 ⟨out, hres⟩) hnot

/-- C9: in a two-argument Relay whose network selector resolves ("all", or a
string that parses to the network of a configured route), a peer argument that
does not decode makes Route return the decoder's error, and one that decodes
to an identity outside the configured peers makes it return "no such peer"; in
both cases the reroute table is left as it was. -/
theorem Route_Relay_bad_peer (hsr : HyprspaceRPC) (lib : Lib) (a0 a1 : String)
    (reply : RouteReply) (tbl : RerouteTable)
    (hnet : a0 = "all" ∨
      ∃ n, lib.ParseCIDR a0 = .ok n ∧ ∃ r ∈ hsr.config.Routes, r.Network = n) :
    (∀ err, lib.Decode a1 = .error err →
      hsr.Route lib ⟨.Relay, [a0, a1]⟩ reply tbl = (.error err, tbl)) ∧
    (∀ p, lib.Decode a1 = .ok p → ⟨p⟩ ∉ hsr.config.Peers →
      hsr.Route lib ⟨.Relay, [a0, a1]⟩ reply tbl
        = (.error (errors.New "no such peer"), tbl)) := by
  have hfp : ∀ p, ⟨p⟩ ∉ hsr.config.Peers → config.FindPeer hsr.config.Peers p = none := by
    intro p hp
    cases hf : config.FindPeer hsr.config.Peers p with
    | none => rfl
    | some q => exact absurd ((FindPeer_isSome hsr.config.Peers p).1 (by simp [hf])) hp
  by_cases hall : a0 = "all"
  · subst hall
    constructor
    · intro err hd
      simp [HyprspaceRPC.Route, hd]
    · intro p hd hp
      simp [HyprspaceRPC.Route, hd, hfp p hp]
  · rcases hnet with hnet | ⟨n, hn, hroute⟩
    · exact absurd hnet hall
    · have h2 := (FindRoute_isSome hsr.config.Routes n).2 hroute
      constructor
      · intro err hd
        simp [HyprspaceRPC.Route, hd, hall, hn, h2]
      · intro p hd hp
        simp [HyprspaceRPC.Route, hd, hall, hn, h2, hfp p hp]

theorem Route_Relay_bad_peer_witness :
    exRPC.Route exLib ⟨.Relay, ["10.0.0.0/24", "zzz"]⟩ ⟨[]⟩ exEmpty
        = (.error (errors.New "failed to parse peer ID"), exEmpty) ∧
    exRPC.Route exLib ⟨.Relay, ["10.0.0.0/24", "peerC"]⟩ ⟨[]⟩ exEmpty
        = (.error (errors.New "no such peer"), exEmpty) :=
  ⟨(Route_Relay_bad_peer exRPC exLib "10.0.0.0/24" "zzz" ⟨[]⟩ exEmpty
      (Or.inr ⟨exNet, by rfl, ⟨exNet, ⟨"peerA"⟩⟩, by simp [exRPC], rfl⟩)).1 _ (by rfl),
   (Route_Relay_bad_peer exRPC exLib "10.0.0.0/24" "peerC" ⟨[]⟩ exEmpty
      (Or.inr ⟨exNet, by rfl, ⟨exNet, ⟨"peerA"⟩⟩, by simp [exRPC], rfl⟩)).2 "peerC" (by rfl)
      (by simp [exRPC])⟩

/-- C10: Status never fails; its connected count is the number of configured
peers whose connectedness is Connected, and its formatted list is the
concatenation, in configuration order, over those connected peers, of one
string `addr/p2p/id (latency)` per connection to the peer. Consequently a
configured peer that is not connected contributes to neither: removing it from
the configuration changes neither the count nor the list. -/
theorem Status_connected_peers (hsr : HyprspaceRPC) (lib : Lib) (args : Args)
    (reply : StatusReply) (tbl : RerouteTable) :
    ∃ out : StatusReply,
      (hsr.Status lib args reply tbl).1 = .ok out ∧
      out.NetPeersCurrent = hsr.config.Peers.countP (fun p =>
          decide (hsr.host.Connectedness p.ID = Connectedness.Connected)) ∧
      out.NetPeerAddrsCurrent =
        (hsr.config.Peers.filter (fun p =>
            decide (hsr.host.Connectedness p.ID = Connectedness.Connected))).flatMap
          (fun p => (hsr.host.ConnsToPeer p.ID).map (fun c =>
            lib.MultiaddrString c.RemoteMultiaddr ++ "/p2p/" ++
              lib.PeerIDString p.ID ++ " (" ++
              lib.DurationString (hsr.host.LatencyEWMA p.ID) ++ ")")) ∧
      ∀ (front back : List config.Peer) (P : config.Peer),
        hsr.config.Peers = front ++ P :: back →
        hsr.host.Connectedness P.ID ≠ Connectedness.Connected →
        ∃ out' : StatusReply,
          (HyprspaceRPC.Status ⟨hsr.host, ⟨front ++ back, hsr.config.Routes⟩⟩
              lib args reply tbl).1 = .ok out' ∧
          out'.NetPeersCurrent = out.NetPeersCurrent ∧
          out'.NetPeerAddrsCurrent = out.NetPeerAddrsCurrent := by
  rw [Status_eq]
  refine ⟨_, rfl, ?_, rfl, ?_⟩
  · simp only [List.countP_eq_length_filter]
  · intro front back P hsplit hP
    rw [Status_eq]
    refine ⟨_, rfl, ?_, ?_⟩
    · simp [hsplit, List.filter_cons, hP]
    · simp [hsplit, List.filter_cons, hP]

/-- Closed form of `Peers`. -/
theorem Peers_eq (hsr : HyprspaceRPC) (lib : Lib) (args : Args) (reply : PeersReply)
    (tbl : RerouteTable) :
    hsr.Peers lib args reply tbl
      = (.ok ⟨hsr.host.Conns.map (fun c =>
            lib.MultiaddrString c.RemoteMultiaddr ++ "/p2p/" ++
              lib.PeerIDString c.RemotePeer)⟩, tbl) := by
  unfold HyprspaceRPC.Peers
  simp only [foldl_append_map, List.nil_append]

/-- Setting the same networks twice leaves what the second pass alone leaves. -/
theorem foldl_AddReroute_twice (ns : List IPNet) (p q : PeerID) (tbl : RerouteTable) :
    ns.foldl (fun tbl n => p2p.AddReroute tbl n q)
        (ns.foldl (fun tbl n => p2p.AddReroute tbl n p) tbl)
      = ns.foldl (fun tbl n => p2p.AddReroute tbl n q) tbl := by
  funext m
  simp only [foldl_AddReroute]
  split <;> rfl

/-- C11: Relay overwrites unconditionally. For a string `sN` that parses to the
network `N` of a configured route and strings that decode to configured peers
`Q1` and `Q2`, Relay `[sN, sQ1]` followed by Relay `[sN, sQ2]` both succeed,
the lookup of `N` in the final table finds the one override, pointing at `Q2`,
and the final table is the table the second Relay alone leaves when issued on
the initial table. -/
theorem Route_Relay_overwrites (hsr : HyprspaceRPC) (lib : Lib) (N : IPNet)
    (Q1 Q2 : PeerID) (sN sQ1 sQ2 : String) (reply : RouteReply) (tbl : RerouteTable)
    (hroute : ∃ r ∈ hsr.config.Routes, r.Network = N)
    (hsN : lib.ParseCIDR sN = .ok N)
    (hsQ1 : lib.Decode sQ1 = .ok Q1) (hpeer1 : ⟨Q1⟩ ∈ hsr.config.Peers)
    (hsQ2 : lib.Decode sQ2 = .ok Q2) (hpeer2 : ⟨Q2⟩ ∈ hsr.config.Peers) :
    ∃ t1 t2 : RerouteTable,
      hsr.Route lib ⟨.Relay, [sN, sQ1]⟩ reply tbl = (.ok reply, t1) ∧
      hsr.Route lib ⟨.Relay, [sN, sQ2]⟩ reply t1 = (.ok reply, t2) ∧
      (p2p.FindReroute t2 N false).1 = some ⟨N, Q2⟩ ∧
      hsr.Route lib ⟨.Relay, [sN, sQ2]⟩ reply tbl = (.ok reply, t2) := by
  have hmem : N ∈ hsr.config.Routes.map (fun r => r.Network) :=
    List.mem_map.2 hroute
  by_cases hall : sN = "all"
  · subst hall
    refine ⟨_, _, Route_Relay_all hsr lib sQ1 Q1 reply tbl hsQ1 hpeer1,
      Route_Relay_all hsr lib sQ2 Q2 reply _ hsQ2 hpeer2, ?_, ?_⟩
    · rw [FindReroute_lookup]
      simp only
      rw [foldl_AddReroute, if_pos hmem]
      rfl
    · rw [Route_Relay_all hsr lib sQ2 Q2 reply tbl hsQ2 hpeer2, foldl_AddReroute_twice]
  · refine ⟨_, _, Route_Relay_cidr hsr lib sN sQ1 N Q1 reply tbl hall hsN hroute hsQ1 hpeer1,
      Route_Relay_cidr hsr lib sN sQ2 N Q2 reply _ hall hsN hroute hsQ2 hpeer2, ?_, ?_⟩
    · rw [FindReroute_lookup]
      simp [p2p.AddReroute]
    · rw [Route_Relay_cidr hsr lib sN sQ2 N Q2 reply tbl hall hsN hroute hsQ2 hpeer2]
      congr 1
      funext m
      simp only [p2p.AddReroute]
      split <;> rfl

theorem Route_Relay_overwrites_witness :
    ∃ t1 t2 : RerouteTable,
      exRPC.Route exLib ⟨.Relay, ["10.0.0.0/24", "peerA"]⟩ ⟨[]⟩ exEmpty = (.ok ⟨[]⟩, t1) ∧
      exRPC.Route exLib ⟨.Relay, ["10.0.0.0/24", "peerB"]⟩ ⟨[]⟩ t1 = (.ok ⟨[]⟩, t2) ∧
      (p2p.FindReroute t2 exNet false).1 = some ⟨exNet, "peerB"⟩ ∧
      exRPC.Route exLib ⟨.Relay, ["10.0.0.0/24", "peerB"]⟩ ⟨[]⟩ exEmpty = (.ok ⟨[]⟩, t2) :=
  Route_Relay_overwrites exRPC exLib exNet "peerA" "peerB" "10.0.0.0/24" "peerA" "peerB"
    ⟨[]⟩ exEmpty (by simp [exRPC]) (by rfl) (by rfl) (by simp [exRPC]) (by rfl)
    (by simp [exRPC])

/-- C12: Reset `["all"]` succeeds on every table, afterwards the lookup of
every configured route's network finds no override, and the Show that follows
reports, for every configured route in order, the relay flag clear and the
relay address equal to the route's own target. -/
theorem Route_Reset_all_then_Show (hsr : HyprspaceRPC) (lib : Lib)
    (showArgs : List String) (reply : RouteReply) (tbl : RerouteTable) :
    ∃ (t1 : RerouteTable) (shown : RouteReply),
      hsr.Route lib ⟨.Reset, ["all"]⟩ reply tbl = (.ok reply, t1) ∧
      (∀ r ∈ hsr.config.Routes, (p2p.FindReroute t1 r.Network false).1 = none) ∧
      hsr.Route lib ⟨.Show, showArgs⟩ reply t1 = (.ok shown, t1) ∧
      shown.Routes.length = hsr.config.Routes.length ∧
      ∀ (i : Nat) (r : config.Route), hsr.config.Routes[i]? = some r →
        ∃ info : RouteInfo, shown.Routes[i]? = some info ∧
          info.Network = r.Network ∧ info.TargetAddr = r.Target.ID ∧
          info.IsRelay = false ∧ info.RelayAddr = r.Target.ID := by
  have hclear : ∀ r ∈ hsr.config.Routes,
      ((hsr.config.Routes.map (fun r => r.Network)).foldl
        (fun tbl n => (p2p.FindReroute tbl n true).2) tbl) r.Network = none := by
    intro r hr
    rw [foldl_FindReroute_clear, if_pos (List.mem_map.2 ⟨r, hr, rfl⟩)]
  refine ⟨_, _, Route_Reset_all hsr lib reply tbl, ?_, Route_Show hsr lib showArgs reply _,
    by simp, ?_⟩
  · intro r hr
    rw [FindReroute_lookup]
    simp only
    rw [hclear r hr]
    rfl
  · intro i r hi
    have hr : r ∈ hsr.config.Routes := List.getElem?_mem hi
    refine ⟨{ Network := r.Network
              TargetAddr := r.Target.ID
              RelayAddr := r.Target.ID
              IsRelay := false
              IsConnected :=
                decide (hsr.host.Connectedness r.Target.ID = Connectedness.Connected) },
      ?_, rfl, rfl, rfl, rfl⟩
    simp only [List.getElem?_map, hi, Option.map_some', hclear r hr]
    rfl

/-- C13: Reset resolves its network selector as Relay does. For every
selector string `s` and every string `q` that decodes to a configured peer,
Reset `[s]` returns an error exactly when Relay `[s, q]` does and then both
return the same error (the parse error of `s`, or "no such network") and leave
the table alone; otherwise there is one list of networks, independent of the
table, such that Reset clears exactly the entries of that list and Relay sets
exactly the entries of that list. -/
theorem Route_Reset_resolves_as_Relay (hsr : HyprspaceRPC) (lib : Lib) (s q : String)
    (Q : PeerID) (hq : lib.Decode q = .ok Q) (hpeer : ⟨Q⟩ ∈ hsr.config.Peers) :
    (∀ (reply : RouteReply) (tbl : RerouteTable) (err : Error),
      (hsr.Route lib ⟨.Reset, [s]⟩ reply tbl).1 = .error err ↔
        (hsr.Route lib ⟨.Relay, [s, q]⟩ reply tbl).1 = .error err) ∧
    ((∃ err : Error,
        (err = errors.New "no such network" ∨ lib.ParseCIDR s = .error err) ∧
        ∀ (reply : RouteReply) (tbl : RerouteTable),
          hsr.Route lib ⟨.Reset, [s]⟩ reply tbl = (.error err, tbl) ∧
          hsr.Route lib ⟨.Relay, [s, q]⟩ reply tbl = (.error err, tbl)) ∨
     (∃ ns : List IPNet,
        ∀ (reply : RouteReply) (tbl : RerouteTable),
          hsr.Route lib ⟨.Reset, [s]⟩ reply tbl
            = (.ok reply, ns.foldl (fun tbl n => (p2p.FindReroute tbl n true).2) tbl) ∧
          hsr.Route lib ⟨.Relay, [s, q]⟩ reply tbl
            = (.ok reply, ns.foldl (fun tbl n => p2p.AddReroute tbl n Q) tbl))) := by
  have hfp := (FindPeer_isSome hsr.config.Peers Q).2 hpeer
  have hd : (∃ err : Error,
        (err = errors.New "no such network" ∨ lib.ParseCIDR s = .error err) ∧
        ∀ (reply : RouteReply) (tbl : RerouteTable),
          hsr.Route lib ⟨.Reset, [s]⟩ reply tbl = (.error err, tbl) ∧
          hsr.Route lib ⟨.Relay, [s, q]⟩ reply tbl = (.error err, tbl)) ∨
     (∃ ns : List IPNet,
        ∀ (reply : RouteReply) (tbl : RerouteTable),
          hsr.Route lib ⟨.Reset, [s]⟩ reply tbl
            = (.ok reply, ns.foldl (fun tbl n => (p2p.FindReroute tbl n true).2) tbl) ∧
          hsr.Route lib ⟨.Relay, [s, q]⟩ reply tbl
            = (.ok reply, ns.foldl (fun tbl n => p2p.AddReroute tbl n Q) tbl)) := by
    by_cases hall : s = "all"
    · subst hall
      exact Or.inr ⟨hsr.config.Routes.map (fun r => r.Network), fun reply tbl =>
        ⟨Route_Reset_all hsr lib reply tbl, Route_Relay_all hsr lib q Q reply tbl hq hpeer⟩⟩
    · cases hn : lib.ParseCIDR s with
      | error e =>
        refine Or.inl ⟨e, Or.inr rfl, fun reply tbl => ⟨?_, ?_⟩⟩
        · simp [HyprspaceRPC.Route, hall, hn]
        · simp [HyprspaceRPC.Route, hall, hn]
      | ok n =>
        cases hr : config.FindRoute hsr.config.Routes n with
        | none =>
          refine Or.inl ⟨errors.New "no such network", Or.inl rfl, fun reply tbl => ⟨?_, ?_⟩⟩
          · simp [HyprspaceRPC.Route, hall, hn, hr]
          · simp [HyprspaceRPC.Route, hall, hn, hr]
        | some r0 =>
          have hroute := (FindRoute_isSome hsr.config.Routes n).1 (by simp [hr])
          exact Or.inr ⟨[n], fun reply tbl =>
            ⟨Route_Reset_cidr hsr lib s n reply tbl hall hn hroute,
             Route_Relay_cidr hsr lib s q n Q reply tbl hall hn hroute hq hpeer⟩⟩
  refine ⟨?_, hd⟩
  intro reply tbl err
  rcases hd with ⟨e, _, he⟩ | ⟨ns, hns⟩
  · rw [(he reply tbl).1, (he reply tbl).2]
  · rw [(hns reply tbl).1, (hns reply tbl).2]

theorem Route_Reset_resolves_as_Relay_witness :
    (∀ (reply : RouteReply) (tbl : RerouteTable) (err : Error),
      (exRPC.Route exLib ⟨.Reset, ["10.0.1.0/24"]⟩ reply tbl).1 = .error err ↔
        (exRPC.Route exLib ⟨.Relay, ["10.0.1.0/24", "peerB"]⟩ reply tbl).1 = .error err) ∧
    ((∃ err : Error,
        (err = errors.New "no such network" ∨ exLib.ParseCIDR "10.0.1.0/24" = .error err) ∧
        ∀ (reply : RouteReply) (tbl : RerouteTable),
          exRPC.Route exLib ⟨.Reset, ["10.0.1.0/24"]⟩ reply tbl = (.error err, tbl) ∧
          exRPC.Route exLib ⟨.Relay, ["10.0.1.0/24", "peerB"]⟩ reply tbl = (.error err, tbl)) ∨
     (∃ ns : List IPNet,
        ∀ (reply : RouteReply) (tbl : RerouteTable),
          exRPC.Route exLib ⟨.Reset, ["10.0.1.0/24"]⟩ reply tbl
            = (.ok reply, ns.foldl (fun tbl n => (p2p.FindReroute tbl n true).2) tbl) ∧
          exRPC.Route exLib ⟨.Relay, ["10.0.1.0/24", "peerB"]⟩ reply tbl
            = (.ok reply, ns.foldl (fun tbl n => p2p.AddReroute tbl n "peerB") tbl))) :=
  Route_Reset_resolves_as_Relay exRPC exLib "10.0.1.0/24" "peerB" "peerB" (by rfl)
    (by simp [exRPC])

/-- C14: for every action value other than Show, Relay and Reset, and every
argument list, Route returns the error "no such action" and leaves the reroute
table as it was. -/
theorem Route_unknown_action (hsr : HyprspaceRPC) (lib : Lib) (action : RouteAction)
    (argl : List String) (reply : RouteReply) (tbl : RerouteTable)
    (hShow : action ≠ .Show) (hRelay : action ≠ .Relay) (hReset : action ≠ .Reset) :
    hsr.Route lib ⟨action, argl⟩ reply tbl = (.error (errors.New "no such action"), tbl) := by
  cases action with
  | Show => exact absurd rfl hShow
  | Relay => exact absurd rfl hRelay
  | Reset => exact absurd rfl hReset
  | Other v => rfl

theorem Route_unknown_action_witness :
    exRPC.Route exLib ⟨.Other 7, ["10.0.0.0/24", "peerB"]⟩ ⟨[]⟩ exEmpty
      = (.error (errors.New "no such action"), exEmpty) :=
  Route_unknown_action exRPC exLib (.Other 7) ["10.0.0.0/24", "peerB"] ⟨[]⟩ exEmpty
    (by decide) (by decide) (by decide)

/-- C15: Peers never returns an error; its reply list has the length of the
host's list of all active connections, and the string at index `i` is the
remote address of the `i`-th connection, then "/p2p/", then its remote peer
id: no connection is filtered out, merged with another or moved. -/
theorem Peers_reply (hsr : HyprspaceRPC) (lib : Lib) (args : Args) (reply : PeersReply)
    (tbl : RerouteTable) :
    ∃ out : PeersReply,
      (hsr.Peers lib args reply tbl).1 = .ok out ∧
      out.PeerAddrs.length = hsr.host.Conns.length ∧
      ∀ (i : Nat) (c : Conn), hsr.host.Conns[i]? = some c →
        out.PeerAddrs[i]? = some (lib.MultiaddrString c.RemoteMultiaddr ++ "/p2p/" ++
          lib.PeerIDString c.RemotePeer) := by
  rw [Peers_eq]
  refine ⟨_, rfl, by simp, ?_⟩
  intro i c hi
  simp only [List.getElem?_map, hi, Option.map_some']

/-- C16: Show, Status and Peers are read-only: each returns the reroute table
it was called with, and a second Show, run on the table the first one leaves,
returns the same reply as the first. -/
theorem handlers_read_only (hsr : HyprspaceRPC) (lib : Lib) (args : Args)
    (argl argl2 : List String) (routeReply routeReply2 : RouteReply)
    (statusReply : StatusReply) (peersReply : PeersReply) (tbl : RerouteTable) :
    (hsr.Route lib ⟨.Show, argl⟩ routeReply tbl).2 = tbl ∧
    (hsr.Status lib args statusReply tbl).2 = tbl ∧
    (hsr.Peers lib args peersReply tbl).2 = tbl ∧
    (hsr.Route lib ⟨.Show, argl2⟩ routeReply2
        (hsr.Route lib ⟨.Show, argl⟩ routeReply tbl).2).1
      = (hsr.Route lib ⟨.Show, argl⟩ routeReply tbl).1 := by
  refine ⟨?_, ?_, ?_, ?_⟩
  · rw [Route_Show]
  · rw [Status_eq]
  · rw [Peers_eq]
  · rw [Route_Show, Route_Show]

/-- C17: frame of a single-network mutation. Let `sN` be a selector other than
"all" that parses to `N` (every CIDR string is one), and `M` a network
different from `N`. Then after Relay `[sN, sQ]`, for any peer argument, and
after Reset `[sN]`, the lookup of `M` in the reroute table gives what it gave
before the call, present or absent and with the same peer; this covers every
successful call. -/
theorem Route_single_network_frame (hsr : HyprspaceRPC) (lib : Lib) (N M : IPNet)
    (sN sQ : String) (reply : RouteReply) (tbl : RerouteTable)
    (hall : sN ≠ "all") (hsN : lib.ParseCIDR sN = .ok N) (hM : M ≠ N) :
    (p2p.FindReroute (hsr.Route lib ⟨.Relay, [sN, sQ]⟩ reply tbl).2 M false).1
        = (p2p.FindReroute tbl M false).1 ∧
    (p2p.FindReroute (hsr.Route lib ⟨.Reset, [sN]⟩ reply tbl).2 M false).1
        = (p2p.FindReroute tbl M false).1 := by
  simp only [FindReroute_lookup]
  constructor
  · cases hr : config.FindRoute hsr.config.Routes N with
    | none => simp [HyprspaceRPC.Route, hall, hsN, hr]
    | some r0 =>
      cases hd : lib.Decode sQ with
      | error e => simp [HyprspaceRPC.Route, hall, hsN, hr, hd]
      | ok p =>
        cases hp : config.FindPeer hsr.config.Peers p with
        | none => simp [HyprspaceRPC.Route, hall, hsN, hr, hd, hp]
        | some q => simp [HyprspaceRPC.Route, hall, hsN, hr, hd, hp, p2p.AddReroute, hM]
  · cases hr : config.FindRoute hsr.config.Routes N with
    | none => simp [HyprspaceRPC.Route, hall, hsN, hr]
    | some r0 => simp [HyprspaceRPC.Route, hall, hsN, hr, FindReroute_clear, hM]

theorem Route_single_network_frame_witness :
    ((exRPC.Route exLib ⟨.Relay, ["10.0.0.0/24", "peerB"]⟩ ⟨[]⟩
        (p2p.AddReroute exEmpty exNetOther "peerA")).1 = .ok ⟨[]⟩ ∧
      (exRPC.Route exLib ⟨.Reset, ["10.0.0.0/24"]⟩ ⟨[]⟩
        (p2p.AddReroute exEmpty exNetOther "peerA")).1 = .ok ⟨[]⟩) ∧
    (p2p.FindReroute
        (exRPC.Route exLib ⟨.Relay, ["10.0.0.0/24", "peerB"]⟩ ⟨[]⟩
          (p2p.AddReroute exEmpty exNetOther "peerA")).2 exNetOther false).1
        = (p2p.FindReroute (p2p.AddReroute exEmpty exNetOther "peerA") exNetOther false).1 ∧
    (p2p.FindReroute
        (exRPC.Route exLib ⟨.Reset, ["10.0.0.0/24"]⟩ ⟨[]⟩
          (p2p.AddReroute exEmpty exNetOther "peerA")).2 exNetOther false).1
        = (p2p.FindReroute (p2p.AddReroute exEmpty exNetOther "peerA") exNetOther false).1 :=
  ⟨⟨by rfl, by rfl⟩,
   Route_single_network_frame exRPC exLib exNet exNetOther "10.0.0.0/24" "peerB" ⟨[]⟩
    (p2p.AddReroute exEmpty exNetOther "peerA") (by decide) (by rfl) (by decide)⟩

/-- C18: Status never returns an error; in its reply the count of connected
configured peers is at most the count of configured peers, the count of
configured peers is the length of the configured peer list, and the total
connection count is the length of the host's list of all active connections. -/
theorem Status_counts (hsr : HyprspaceRPC) (lib : Lib) (args : Args)
    (reply : StatusReply) (tbl : RerouteTable) :
    ∃ out : StatusReply,
      (hsr.Status lib args reply tbl).1 = .ok out ∧
      out.NetPeersCurrent ≤ out.NetPeersMax ∧
      out.NetPeersMax = hsr.config.Peers.length ∧
      out.SwarmPeersCurrent = hsr.host.Conns.length := by
  rw [Status_eq]
  exact ⟨_, rfl, List.length_filter_le _ _, rfl, rfl⟩

end Hyprspace
